import Mathlib

/-!
Shallow embedding of the booking lifecycle and overlap/cancellation engine of
the hausrunde rental-marketplace backend, together with theorems checking the
natural-language specification against the code.

Sources embedded here (paths relative to the repository root):
- `src/ads/models/booking.py` — the Booking row and its three statuses.
- `src/ads/models/ad.py` — the Ad row (owner, price, is_active).
- `src/ads/models/review.py` — the Review row and `Review.clean`.
- `src/ads/serializers/booking.py` — `BookingSerializer.validate`.
- `src/ads/serializers/review.py` — `ReviewSerializer.validate` (create flow).
- `src/ads/views.py` — `BookingViewSet.confirm/reject/cancel/cancel_quote`,
  `_compute_cancel_quote`, `ReviewViewSet.perform_create`.

Calendar dates are embedded as `Int` (a day count); Django `DateField`
subtraction `(a - b).days` becomes plain `Int` subtraction.  Money is `ℚ`
(the code stores `DecimalField(decimal_places=2)` prices and does its fee
arithmetic on exact decimal values of that size).  Database rows live in
`List`s; a queryset `.filter(...)` becomes `List.filter`/`List.any`, and
`.update(...)` becomes `List.map`.
-/

namespace Hausrunde

/-- Booking status values, from `Booking.STATUS_CHOICES` in
`src/ads/models/booking.py`. -/
inductive Status where
  | PENDING
  | CONFIRMED
  | CANCELLED
deriving DecidableEq, Repr

/-- A Booking row (`src/ads/models/booking.py`): ad and tenant foreign keys,
a date window and a status.  `dateFrom`/`dateTo` are days since an epoch. -/
structure Booking where
  id : Nat
  adId : Nat
  tenantId : Nat
  dateFrom : Int
  dateTo : Int
  status : Status
deriving DecidableEq, Repr

/-- The part of an Ad row (`src/ads/models/ad.py`) the booking engine reads:
owner id, nightly price and the `is_active` gate. -/
structure Ad where
  id : Nat
  ownerId : Nat
  price : ℚ
  isActive : Bool
deriving DecidableEq, Repr

/-- The queryset condition `date_from__lte=<window to>, date_to__gte=<window from>`
used to test an existing booking against a candidate window.  It appears
verbatim at both overlap-checking sites of the code:
`BookingSerializer.validate` (src/ads/serializers/booking.py lines 88-91)
and the cascade inside `BookingViewSet.confirm` (src/ads/views.py lines
1072-1077). -/
def overlapFilterHit (bFrom bTo wFrom wTo : Int) : Bool :=
  decide (bFrom ≤ wTo) && decide (bTo ≥ wFrom)

/-- Modelled from the spec: the Overlap Predicate of spec section 4.1,
`overlaps(a_from, a_to, b_from, b_to) = a_from < b_to AND a_to > b_from`
(strict on both ends).  Stated only to be compared against the code's
`overlapFilterHit`; the code itself contains no strict variant. -/
def specOverlaps (aFrom aTo bFrom bTo : Int) : Bool :=
  decide (aFrom < bTo) && decide (aTo > bFrom)

/-- The code's booking-versus-booking conflict relation: booking `a`'s window
tested against booking `b`'s window by `overlapFilterHit` (non-strict at both
ends). -/
def touchOverlap (a b : Booking) : Prop :=
  a.dateFrom ≤ b.dateTo ∧ a.dateTo ≥ b.dateFrom

/-- Strict window overlap between two bookings (the spec 4.1 notion lifted to
rows); used to state what the spec calls "overlapping windows". -/
def strictOverlap (a b : Booking) : Prop :=
  a.dateFrom < b.dateTo ∧ a.dateTo > b.dateFrom

instance (a b : Booking) : Decidable (touchOverlap a b) :=
  inferInstanceAs (Decidable (a.dateFrom ≤ b.dateTo ∧ a.dateTo ≥ b.dateFrom))

instance (a b : Booking) : Decidable (strictOverlap a b) :=
  inferInstanceAs (Decidable (a.dateFrom < b.dateTo ∧ a.dateTo > b.dateFrom))

instance {ε α : Type} [DecidableEq ε] [DecidableEq α] : DecidableEq (Except ε α) := fun a b =>
  match a, b with
  | Except.ok x, Except.ok y =>
    if h : x = y then isTrue (by rw [h])
    else isFalse fun hc => h (Except.ok.inj hc)
  | Except.error x, Except.error y =>
    if h : x = y then isTrue (by rw [h])
    else isFalse fun hc => h (Except.error.inj hc)
  | Except.ok _, Except.error _ => isFalse fun hc => Except.noConfusion hc
  | Except.error _, Except.ok _ => isFalse fun hc => Except.noConfusion hc

theorem touchOverlap_def (a b : Booking) :
    touchOverlap a b ↔ a.dateFrom ≤ b.dateTo ∧ a.dateTo ≥ b.dateFrom := Iff.rfl

theorem overlapFilterHit_iff (bFrom bTo wFrom wTo : Int) :
    overlapFilterHit bFrom bTo wFrom wTo = true ↔ bFrom ≤ wTo ∧ bTo ≥ wFrom := by
  simp [overlapFilterHit]

theorem touchOverlap_symm (a b : Booking) : touchOverlap a b ↔ touchOverlap b a := by
  unfold touchOverlap
  omega

theorem strictOverlap_touchOverlap (a b : Booking) :
    strictOverlap a b → touchOverlap a b := by
  unfold strictOverlap touchOverlap
  omega

/-- C1 counterexample: the ranges a = [0,5) and b = [5,8) are valid and touch
(`a_to = b_from`), the spec predicate reports no conflict, yet the overlap
test the code runs at booking creation/update reports a hit, so a booking
ending exactly when another starts DOES conflict in the code. -/
theorem c1_overlap_counterexample :
    (0 : Int) < 5 ∧ (5 : Int) < 8 ∧
    specOverlaps 0 5 5 8 = false ∧
    overlapFilterHit 5 8 0 5 = true := by decide

/-- C1 (amended): the overlap test used at booking creation/update and in the
confirm cascade is non-strict on both ends: two valid ranges conflict iff
`a_from ≤ b_to AND a_to ≥ b_from`; the relation is symmetric; and a booking
ending exactly when another starts (`a_to = b_from`) DOES conflict. -/
theorem c1_overlap_nonstrict (aFrom aTo bFrom bTo : Int)
    (ha : aFrom < aTo) (hb : bFrom < bTo) :
    (overlapFilterHit bFrom bTo aFrom aTo = (decide (aFrom ≤ bTo) && decide (aTo ≥ bFrom)))
    ∧ (overlapFilterHit bFrom bTo aFrom aTo = overlapFilterHit aFrom aTo bFrom bTo)
    ∧ (aTo = bFrom → overlapFilterHit bFrom bTo aFrom aTo = true) := by
  refine ⟨?_, ?_, ?_⟩
  · simp only [overlapFilterHit]
    by_cases h1 : bFrom ≤ aTo <;> by_cases h2 : bTo ≥ aFrom <;> simp [h1, h2]
  · simp only [overlapFilterHit]
    by_cases h1 : bFrom ≤ aTo <;> by_cases h2 : bTo ≥ aFrom <;> simp [h1, h2]
  · intro h
    simp only [overlapFilterHit, Bool.and_eq_true, decide_eq_true_eq]
    omega

/-- Witness for C1 (amended) at the concrete touching ranges [0,5) and [5,8). -/
theorem c1_overlap_nonstrict_witness :
    (overlapFilterHit 5 8 0 5 = (decide ((0:Int) ≤ 8) && decide ((5:Int) ≥ 5)))
    ∧ (overlapFilterHit 5 8 0 5 = overlapFilterHit 0 5 5 8)
    ∧ ((5:Int) = 5 → overlapFilterHit 5 8 0 5 = true) :=
  c1_overlap_nonstrict 0 5 5 8 (by decide) (by decide)

/-! ## Booking validation pipeline (`BookingSerializer.validate`) -/

/-- The field-keyed error dictionary that `BookingSerializer.validate`
(src/ads/serializers/booking.py lines 57-101) accumulates: keys `ad`,
`non_field_errors`, `date_to`, `date_from`, each a list of messages. -/
structure BookingErrors where
  ad : List String
  non_field_errors : List String
  date_to : List String
  date_from : List String
deriving DecidableEq, Repr

/-- `if errors: raise` — the dictionary is empty iff no key holds a message. -/
def BookingErrors.isEmpty (e : BookingErrors) : Bool :=
  e.ad.isEmpty && e.non_field_errors.isEmpty && e.date_to.isEmpty && e.date_from.isEmpty

def inactiveAdMsg : String := "This ad is inactive."
def ownAdMsg : String := "You cannot book your own ad."
def dateOrderMsg : String := "must be greater than date_from"
def leadTimeMsg : String := "Start date must be at least tomorrow."
def overlapMsg : String := "Requested dates overlap with a confirmed booking."

/-- `BookingSerializer.validate` (src/ads/serializers/booking.py lines 57-101)
for a request that supplies the ad and both dates (the create/update path):
inactive-ad and own-ad checks, date-order check, lead-time check, and — only
when no error has been recorded yet — the overlap query against CONFIRMED
bookings on the ad (`status=Booking.CONFIRMED, date_from__lte=date_to,
date_to__gte=date_from`), excluding the booking's own row on update
(`instancePk`). -/
def bookingValidate (userId : Nat) (ad : Ad) (dateFrom dateTo today : Int)
    (bookings : List Booking) (instancePk : Option Nat) : BookingErrors :=
  let adErrs : List String := if ad.isActive then [] else [inactiveAdMsg]
  let nfErrs : List String := if ad.ownerId = userId then [ownAdMsg] else []
  let dtErrs : List String := if dateTo ≤ dateFrom then [dateOrderMsg] else []
  let dfErrs : List String := if dateFrom ≤ today then [leadTimeMsg] else []
  let noErrsYet : Bool :=
    adErrs.isEmpty && nfErrs.isEmpty && dtErrs.isEmpty && dfErrs.isEmpty
  let overlapHit : Bool := bookings.any fun b =>
    decide (b.adId = ad.id) && decide (b.status = Status.CONFIRMED) &&
    overlapFilterHit b.dateFrom b.dateTo dateFrom dateTo &&
    (match instancePk with
     | none => true
     | some pk => decide (b.id ≠ pk))
  let nfErrs2 : List String :=
    if noErrsYet && overlapHit then nfErrs ++ [overlapMsg] else nfErrs
  { ad := adErrs, non_field_errors := nfErrs2, date_to := dtErrs, date_from := dfErrs }

/-- C7 counterexample: with an active ad owned by someone else, `date_from`
one day before `date_to` (wrong order) and both in the past, a single
validation pass reports the date-order error AND the lead-time error keyed to
`date_from` together — the lead-time check is not skipped. -/
theorem c7_skip_counterexample :
    (bookingValidate 20 ⟨1, 10, 100, true⟩ 0 (-1) 5 [] none).date_to = [dateOrderMsg]
    ∧ (bookingValidate 20 ⟨1, 10, 100, true⟩ 0 (-1) 5 [] none).date_from = [leadTimeMsg] := by
  decide

/-- C7 (amended): when the date order check fails (`date_to ≤ date_from`), the
overlap check (step 6) is skipped, so no overlap error appears in the same
error result as the date-order error; but the lead-time check (step 5) still
runs, so its `date_from` error appears exactly when `date_from ≤ today`. -/
theorem c7_overlap_skipped (userId : Nat) (ad : Ad) (dateFrom dateTo today : Int)
    (bookings : List Booking) (instancePk : Option Nat)
    (horder : dateTo ≤ dateFrom) :
    overlapMsg ∉ (bookingValidate userId ad dateFrom dateTo today bookings instancePk).non_field_errors
    ∧ (bookingValidate userId ad dateFrom dateTo today bookings instancePk).date_from
        = (if dateFrom ≤ today then [leadTimeMsg] else []) := by
  unfold bookingValidate
  simp only [horder, if_true, List.isEmpty_cons, Bool.and_false, Bool.false_and,
    Bool.and_self, if_pos, reduceIte]
  constructor
  · by_cases hown : ad.ownerId = userId <;>
      simp [hown, Bool.and_comm, ownAdMsg, overlapMsg]
  · trivial

/-- Witness for C7 (amended) at the concrete counterexample input. -/
theorem c7_overlap_skipped_witness :
    overlapMsg ∉ (bookingValidate 20 ⟨1, 10, 100, true⟩ 0 (-1) 5 [] none).non_field_errors
    ∧ (bookingValidate 20 ⟨1, 10, 100, true⟩ 0 (-1) 5 [] none).date_from
        = (if (0:Int) ≤ 5 then [leadTimeMsg] else []) :=
  c7_overlap_skipped 20 ⟨1, 10, 100, true⟩ 0 (-1) 5 [] none (by decide)

/-! ## Engine state and operations (`BookingViewSet`) -/

/-- The persisted state the booking engine reads and writes: the Ad table,
the Booking table and the next primary key handed to a created booking. -/
structure EngineState where
  ads : List Ad
  bookings : List Booking
  nextId : Nat
deriving DecidableEq, Repr

/-- Error outcomes of the engine calls, as surfaced by the views: 404 from
`get_object_or_404`/queryset filtering, 403 from `PermissionDenied`, 400 with
a detail message, or the serializer's field-keyed `ValidationError`. -/
inductive Err where
  | notFound
  | forbidden
  | badRequest (detail : String)
  | validation (e : BookingErrors)
deriving DecidableEq, Repr

def getAd (s : EngineState) (adId : Nat) : Option Ad :=
  s.ads.find? fun a => a.id == adId

def getBooking (s : EngineState) (bid : Nat) : Option Booking :=
  s.bookings.find? fun b => b.id == bid

/-- `BookingViewSet.create` + `perform_create` (src/ads/views.py lines
942-944): run `BookingSerializer.validate` on the request, then insert a new
row with `status = PENDING` and `tenant = request.user`. -/
def createBooking (s : EngineState) (tenantId adId : Nat) (dateFrom dateTo today : Int) :
    Except Err EngineState :=
  match getAd s adId with
  | none => Except.error Err.notFound
  | some ad =>
    let errs := bookingValidate tenantId ad dateFrom dateTo today s.bookings none
    if errs.isEmpty then
      Except.ok { s with
        bookings := s.bookings ++ [⟨s.nextId, adId, tenantId, dateFrom, dateTo, Status.PENDING⟩],
        nextId := s.nextId + 1 }
    else Except.error (Err.validation errs)

/-- The per-row effect of the confirm cascade (src/ads/views.py lines
1070-1077): the confirmed booking's row goes to CONFIRMED; every other row on
the same ad with `status=PENDING, date_from__lte=confirmed.date_to,
date_to__gte=confirmed.date_from` goes to CANCELLED; all other rows are left
alone. -/
def confirmMapFn (bk b : Booking) : Booking :=
  if b.id = bk.id then { b with status := Status.CONFIRMED }
  else if decide (b.adId = bk.adId) && decide (b.status = Status.PENDING) &&
          overlapFilterHit b.dateFrom b.dateTo bk.dateFrom bk.dateTo then
    { b with status := Status.CANCELLED }
  else b

/-- `BookingViewSet.confirm` (src/ads/views.py lines 1060-1078): ad owner
only; only a PENDING booking can be confirmed; then the cascade update runs
over the Booking table. -/
def confirmBooking (s : EngineState) (actorId bid : Nat) : Except Err EngineState :=
  match getBooking s bid with
  | none => Except.error Err.notFound
  | some bk =>
    match getAd s bk.adId with
    | none => Except.error Err.notFound
    | some ad =>
      if ad.ownerId ≠ actorId then Except.error Err.forbidden
      else if bk.status ≠ Status.PENDING then
        Except.error (Err.badRequest "Only PENDING bookings can be confirmed.")
      else Except.ok { s with bookings := s.bookings.map (confirmMapFn bk) }

/-- The per-row effect of a reject or cancel write (`status = CANCELLED`,
`save(update_fields=["status"])`): the targeted row goes to CANCELLED, every
other row is untouched. -/
def cancelMapFn (bid : Nat) (b : Booking) : Booking :=
  if b.id = bid then { b with status := Status.CANCELLED } else b

/-- `BookingViewSet.reject` (src/ads/views.py lines 1093-1103): ad owner
only; only a PENDING booking can be rejected; its status becomes CANCELLED. -/
def rejectBooking (s : EngineState) (actorId bid : Nat) : Except Err EngineState :=
  match getBooking s bid with
  | none => Except.error Err.notFound
  | some bk =>
    match getAd s bk.adId with
    | none => Except.error Err.notFound
    | some ad =>
      if ad.ownerId ≠ actorId then Except.error Err.forbidden
      else if bk.status ≠ Status.PENDING then
        Except.error (Err.badRequest "Only PENDING bookings can be rejected.")
      else Except.ok { s with bookings := s.bookings.map (cancelMapFn bk.id) }

/-- `BookingViewSet.cancel` (src/ads/views.py lines 1005-1045): tenant only;
an already CANCELLED booking is refused; then (with three statuses the
PENDING/CONFIRMED allowlist is the complement of CANCELLED, kept verbatim
anyway); then the time rule `today >= date_from` refuses; otherwise the
status becomes CANCELLED. -/
def cancelBooking (s : EngineState) (actorId bid : Nat) (today : Int) : Except Err EngineState :=
  match getBooking s bid with
  | none => Except.error Err.notFound
  | some bk =>
    if bk.tenantId ≠ actorId then Except.error Err.forbidden
    else if bk.status = Status.CANCELLED then
      Except.error (Err.badRequest "Already cancelled")
    else if ¬(bk.status = Status.PENDING ∨ bk.status = Status.CONFIRMED) then
      Except.error (Err.badRequest "Cannot cancel booking with this status.")
    else if today ≥ bk.dateFrom then
      Except.error (Err.badRequest "Cancellation is no longer allowed on/after the start date.")
    else Except.ok { s with bookings := s.bookings.map (cancelMapFn bk.id) }

/-- One engine call: create, confirm, reject or cancel, with its actor and
its request data.  `today` is the calendar date the handler would read from
the clock. -/
inductive Op where
  | create (tenantId adId : Nat) (dateFrom dateTo today : Int)
  | confirm (actorId bid : Nat)
  | reject (actorId bid : Nat)
  | cancel (actorId bid : Nat) (today : Int)
deriving DecidableEq, Repr

/-- Apply one call to the store: a failed call performs no state change (the
views return an error response before any write). -/
def applyOp (s : EngineState) (op : Op) : EngineState :=
  match op with
  | Op.create tenantId adId dateFrom dateTo today =>
    match createBooking s tenantId adId dateFrom dateTo today with
    | Except.ok s2 => s2
    | Except.error _ => s
  | Op.confirm actorId bid =>
    match confirmBooking s actorId bid with
    | Except.ok s2 => s2
    | Except.error _ => s
  | Op.reject actorId bid =>
    match rejectBooking s actorId bid with
    | Except.ok s2 => s2
    | Except.error _ => s
  | Op.cancel actorId bid today =>
    match cancelBooking s actorId bid today with
    | Except.ok s2 => s2
    | Except.error _ => s

def applyOps (s : EngineState) (ops : List Op) : EngineState :=
  ops.foldl applyOp s

/-! ## Create: only CONFIRMED bookings block (C10) -/

theorem bookingValidate_ok (userId : Nat) (ad : Ad) (dateFrom dateTo today : Int)
    (bookings : List Booking)
    (hact : ad.isActive = true) (hown : ad.ownerId ≠ userId)
    (hord : dateFrom < dateTo) (hlead : today < dateFrom)
    (hblk : ∀ b ∈ bookings, b.adId = ad.id →
        overlapFilterHit b.dateFrom b.dateTo dateFrom dateTo = true →
        b.status ≠ Status.CONFIRMED) :
    bookingValidate userId ad dateFrom dateTo today bookings none = ⟨[], [], [], []⟩ := by
  have h1 : ¬ dateTo ≤ dateFrom := by omega
  have h2 : ¬ dateFrom ≤ today := by omega
  have hov : (bookings.any fun b =>
      decide (b.adId = ad.id) && decide (b.status = Status.CONFIRMED) &&
      overlapFilterHit b.dateFrom b.dateTo dateFrom dateTo &&
      (match (none : Option Nat) with
       | none => true
       | some pk => decide (b.id ≠ pk))) = false := by
    simp only [List.any_eq_false]
    intro b hb
    by_cases hA : b.adId = ad.id
    · by_cases hC : b.status = Status.CONFIRMED
      · have := hblk b hb hA
        by_cases hO : overlapFilterHit b.dateFrom b.dateTo dateFrom dateTo = true
        · exact absurd hC (this hO)
        · simp [hO]
      · simp [hC]
    · simp [hA]
  simp only [bookingValidate, hact, if_true, hown, if_neg, h1, h2, if_false, hov,
    Bool.and_false, Bool.false_and]
  simp

/-- C10: at booking creation only CONFIRMED bookings block the window: when
the ad is active and not the tenant's own, the dates pass the order and
lead-time checks, and every booking on the ad hit by the code's overlap
filter has a status other than CONFIRMED (PENDING or CANCELLED), validation
passes and a new PENDING booking row is appended — so overlapping PENDING
bookings can coexist on one ad. -/
theorem c10_only_confirmed_blocks (s : EngineState) (tenantId adId : Nat)
    (dateFrom dateTo today : Int) (ad : Ad)
    (hfind : getAd s adId = some ad)
    (hact : ad.isActive = true) (hown : ad.ownerId ≠ tenantId)
    (hord : dateFrom < dateTo) (hlead : today < dateFrom)
    (hblk : ∀ b ∈ s.bookings, b.adId = ad.id →
        overlapFilterHit b.dateFrom b.dateTo dateFrom dateTo = true →
        b.status ≠ Status.CONFIRMED) :
    createBooking s tenantId adId dateFrom dateTo today =
      Except.ok { s with
        bookings := s.bookings ++ [⟨s.nextId, adId, tenantId, dateFrom, dateTo, Status.PENDING⟩],
        nextId := s.nextId + 1 } := by
  have hv := bookingValidate_ok tenantId ad dateFrom dateTo today s.bookings
    hact hown hord hlead hblk
  unfold createBooking
  rw [hfind]
  dsimp only
  rw [hv]
  rfl

/-- Witness for C10: one ad (id 1, owner 10, active), two overlapping PENDING
bookings on it, and a third tenant booking the very same window [10,15)
succeeds and lands as PENDING. -/
theorem c10_only_confirmed_blocks_witness :
    createBooking
        ⟨[⟨1, 10, 100, true⟩],
         [⟨1, 1, 20, 10, 15, Status.PENDING⟩, ⟨2, 1, 21, 10, 15, Status.PENDING⟩], 3⟩
        22 1 10 15 0 =
      Except.ok
        ⟨[⟨1, 10, 100, true⟩],
         [⟨1, 1, 20, 10, 15, Status.PENDING⟩, ⟨2, 1, 21, 10, 15, Status.PENDING⟩,
          ⟨3, 1, 22, 10, 15, Status.PENDING⟩], 4⟩ :=
  c10_only_confirmed_blocks _ 22 1 10 15 0 ⟨1, 10, 100, true⟩
    (by decide) (by decide) (by decide) (by decide) (by decide)
    (by decide)

/-! ## Confirm cascade (C2) -/

theorem confirmMapFn_id (bk b : Booking) : (confirmMapFn bk b).id = b.id := by
  unfold confirmMapFn
  split
  · rfl
  · split <;> rfl

theorem confirmMapFn_adId (bk b : Booking) : (confirmMapFn bk b).adId = b.adId := by
  unfold confirmMapFn
  split
  · rfl
  · split <;> rfl

theorem confirmMapFn_dateFrom (bk b : Booking) : (confirmMapFn bk b).dateFrom = b.dateFrom := by
  unfold confirmMapFn
  split
  · rfl
  · split <;> rfl

theorem confirmMapFn_dateTo (bk b : Booking) : (confirmMapFn bk b).dateTo = b.dateTo := by
  unfold confirmMapFn
  split
  · rfl
  · split <;> rfl

/-- On the confirm path, the resulting booking table is the cascade map over
the old table. -/
theorem confirmBooking_ok_bookings (s s2 : EngineState) (actorId bid : Nat) (bk : Booking)
    (hfind : getBooking s bid = some bk)
    (hok : confirmBooking s actorId bid = Except.ok s2) :
    s2 = { s with bookings := s.bookings.map (confirmMapFn bk) }
    ∧ bk.status = Status.PENDING := by
  unfold confirmBooking at hok
  rw [hfind] at hok
  dsimp only at hok
  cases had : getAd s bk.adId with
  | none => rw [had] at hok; simp at hok
  | some ad =>
    rw [had] at hok
    dsimp only at hok
    by_cases hown : ad.ownerId ≠ actorId
    · rw [if_pos hown] at hok; simp at hok
    · rw [if_neg hown] at hok
      by_cases hst : bk.status ≠ Status.PENDING
      · rw [if_pos hst] at hok; simp at hok
      · rw [if_neg hst] at hok
        cases hok
        exact ⟨rfl, not_not.mp hst⟩

/-- C2 (amended): when the owner confirms a PENDING booking, every other
booking on the same ad in status PENDING whose window is hit by the code's
non-strict filter against the confirmed window (overlapping OR merely
touching) is transitioned to CANCELLED; every other booking — on another ad,
in another status, or with a window the filter misses — is carried over
unchanged (in particular CONFIRMED and CANCELLED rows, and PENDING rows that
neither overlap nor touch). -/
theorem c2_confirm_cascade (s s2 : EngineState) (actorId bid : Nat) (bk : Booking)
    (hfind : getBooking s bid = some bk)
    (hok : confirmBooking s actorId bid = Except.ok s2) :
    ∀ b ∈ s.bookings, b.id ≠ bk.id →
      ((b.adId = bk.adId ∧ b.status = Status.PENDING ∧ touchOverlap b bk) →
          { b with status := Status.CANCELLED } ∈ s2.bookings)
      ∧ (¬(b.adId = bk.adId ∧ b.status = Status.PENDING ∧ touchOverlap b bk) →
          b ∈ s2.bookings) := by
  obtain ⟨hmap, -⟩ := confirmBooking_ok_bookings s s2 actorId bid bk hfind hok
  intro b hb hid
  constructor
  · rintro ⟨hA, hP, hT⟩
    have hcond : (decide (b.adId = bk.adId) && decide (b.status = Status.PENDING) &&
        overlapFilterHit b.dateFrom b.dateTo bk.dateFrom bk.dateTo) = true := by
      simp only [Bool.and_eq_true, decide_eq_true_eq, overlapFilterHit_iff]
      exact ⟨⟨hA, hP⟩, hT.1, hT.2⟩
    have hfn : confirmMapFn bk b = { b with status := Status.CANCELLED } := by
      simp [confirmMapFn, hid, hcond]
    rw [hmap, ← hfn]
    exact List.mem_map_of_mem _ hb
  · intro hnot
    have hcond : (decide (b.adId = bk.adId) && decide (b.status = Status.PENDING) &&
        overlapFilterHit b.dateFrom b.dateTo bk.dateFrom bk.dateTo) = false := by
      by_contra h
      rw [Bool.not_eq_false] at h
      simp only [Bool.and_eq_true, decide_eq_true_eq, overlapFilterHit_iff] at h
      exact hnot ⟨h.1.1, h.1.2, h.2.1, h.2.2⟩
    have hfn : confirmMapFn bk b = b := by
      simp [confirmMapFn, hid, hcond]
    rw [hmap, ← hfn]
    exact List.mem_map_of_mem _ hb

def c2Ad : Ad := ⟨1, 10, 100, true⟩

def c2Target : Booking := ⟨1, 1, 20, 0, 5, Status.PENDING⟩

def c2Touching : Booking := ⟨2, 1, 21, 5, 8, Status.PENDING⟩

def c2State : EngineState := ⟨[c2Ad], [c2Target, c2Touching], 3⟩

def c2StateAfter : EngineState :=
  ⟨[c2Ad], [⟨1, 1, 20, 0, 5, Status.CONFIRMED⟩, ⟨2, 1, 21, 5, 8, Status.CANCELLED⟩], 3⟩

/-- C2 counterexample: bookings [0,5) and [5,8) on the same ad, both PENDING,
with windows that do NOT overlap (they only touch at day 5).  The owner
confirms the first; the second — a non-overlapping PENDING booking on that
ad — does not keep status PENDING: the cascade cancels it. -/
theorem c2_cascade_counterexample :
    ¬ strictOverlap c2Touching c2Target
    ∧ ¬ strictOverlap c2Target c2Touching
    ∧ confirmBooking c2State 10 1 = Except.ok c2StateAfter := by decide

/-- Witness for C2 (amended): at the concrete two-booking state, the touching
PENDING booking is carried to the result with status CANCELLED. -/
theorem c2_confirm_cascade_witness :
    { c2Touching with status := Status.CANCELLED } ∈ c2StateAfter.bookings :=
  ((c2_confirm_cascade c2State c2StateAfter 10 1 c2Target (by decide) (by decide))
    c2Touching (by decide) (by decide)).1 (by decide)

/-! ## Cancel and its time rule (C4) -/

/-- C4: for every booking and every today on/after the booking's `date_from`,
the tenant's cancel call fails with an error and performs no state change;
for today strictly before `date_from`, cancelling a PENDING or CONFIRMED
booking sets its status to CANCELLED (all other rows untouched). -/
theorem c4_cancel_time_rule (s : EngineState) (bid : Nat) (bk : Booking) (today : Int)
    (hfind : getBooking s bid = some bk) :
    (today ≥ bk.dateFrom →
       applyOp s (Op.cancel bk.tenantId bid today) = s ∧
       ∃ e, cancelBooking s bk.tenantId bid today = Except.error e)
    ∧ (today < bk.dateFrom → (bk.status = Status.PENDING ∨ bk.status = Status.CONFIRMED) →
       cancelBooking s bk.tenantId bid today =
         Except.ok { s with bookings := s.bookings.map (cancelMapFn bk.id) }) := by
  have hten : ¬ bk.tenantId ≠ bk.tenantId := by simp
  constructor
  · intro htime
    have herr : ∃ e, cancelBooking s bk.tenantId bid today = Except.error e := by
      unfold cancelBooking
      rw [hfind]
      dsimp only
      rw [if_neg hten]
      cases hst : bk.status <;> simp [htime]
    obtain ⟨e, he⟩ := herr
    exact ⟨by simp [applyOp, he], ⟨e, he⟩⟩
  · intro htime hst
    unfold cancelBooking
    rw [hfind]
    dsimp only
    rw [if_neg hten]
    have h1 : ¬ bk.status = Status.CANCELLED := by
      rcases hst with h | h <;> simp [h]
    have h2 : ¬¬(bk.status = Status.PENDING ∨ bk.status = Status.CONFIRMED) := not_not.mpr hst
    have h3 : ¬ today ≥ bk.dateFrom := by omega
    rw [if_neg h1, if_neg h2, if_neg h3]

/-- Witness for C4 at a concrete CONFIRMED booking with `date_from = 5`:
with today = 5 (start day) the cancel call errors and the state is unchanged;
the same theorem applied with today = 4 gives the successful transition. -/
theorem c4_cancel_time_rule_witness :
    (applyOp ⟨[⟨1, 10, 100, true⟩], [⟨1, 1, 20, 5, 9, Status.CONFIRMED⟩], 2⟩
        (Op.cancel 20 1 5) =
      ⟨[⟨1, 10, 100, true⟩], [⟨1, 1, 20, 5, 9, Status.CONFIRMED⟩], 2⟩ ∧
     ∃ e, cancelBooking ⟨[⟨1, 10, 100, true⟩], [⟨1, 1, 20, 5, 9, Status.CONFIRMED⟩], 2⟩
        20 1 5 = Except.error e)
    ∧ cancelBooking ⟨[⟨1, 10, 100, true⟩], [⟨1, 1, 20, 5, 9, Status.CONFIRMED⟩], 2⟩
        20 1 4 =
      Except.ok { ads := [⟨1, 10, 100, true⟩],
                  bookings := [⟨1, 1, 20, 5, 9, Status.CONFIRMED⟩].map (cancelMapFn 1),
                  nextId := 2 } :=
  ⟨(c4_cancel_time_rule _ 1 ⟨1, 1, 20, 5, 9, Status.CONFIRMED⟩ 5 (by decide)).1 (by decide),
   (c4_cancel_time_rule _ 1 ⟨1, 1, 20, 5, 9, Status.CONFIRMED⟩ 4 (by decide)).2
     (by decide) (by decide)⟩

/-! ## The confirm invariant (C3) -/

/-- Booking primary keys are pairwise distinct (the store's autoincrement
key). -/
def IdsDistinct (bs : List Booking) : Prop :=
  bs.Pairwise fun a b => a.id ≠ b.id

/-- Every stored id is below the next key to be handed out. -/
def IdsBounded (s : EngineState) : Prop :=
  ∀ b ∈ s.bookings, b.id < s.nextId

/-- No PENDING booking is hit by the code's overlap filter against a
CONFIRMED booking on the same ad.  Creation guarantees this for new rows and
the confirm cascade restores it. -/
def PendingClear (bs : List Booking) : Prop :=
  ∀ p ∈ bs, ∀ c ∈ bs, p.status = Status.PENDING → c.status = Status.CONFIRMED →
    p.adId = c.adId → ¬ touchOverlap p c

/-- No two distinct CONFIRMED bookings on the same ad overlap or touch. -/
def ConfirmedClear (bs : List Booking) : Prop :=
  ∀ a ∈ bs, ∀ b ∈ bs, a.id ≠ b.id → a.adId = b.adId →
    a.status = Status.CONFIRMED → b.status = Status.CONFIRMED → ¬ touchOverlap a b

/-- The inductive invariant of the engine: distinct bounded keys, no PENDING
row blocking-overlapping a CONFIRMED row, and no two CONFIRMED rows
blocking-overlapping each other.  The empty store satisfies it, and every
reachable state keeps it. -/
def Inv (s : EngineState) : Prop :=
  IdsDistinct s.bookings ∧ IdsBounded s ∧ PendingClear s.bookings ∧ ConfirmedClear s.bookings

/-- The property claimed by the spec: no two distinct CONFIRMED bookings on
the same ad have strictly overlapping windows. -/
def NoConfirmedOverlap (bs : List Booking) : Prop :=
  ∀ a ∈ bs, ∀ b ∈ bs, a.id ≠ b.id → a.adId = b.adId →
    a.status = Status.CONFIRMED → b.status = Status.CONFIRMED → ¬ strictOverlap a b

theorem mem_id_unique {bs : List Booking} (hdist : IdsDistinct bs) {a b : Booking}
    (ha : a ∈ bs) (hb : b ∈ bs) (hid : a.id = b.id) : a = b := by
  by_contra hne
  have hsym : Symmetric fun a b : Booking => a.id ≠ b.id := fun x y h e => h e.symm
  exact (List.Pairwise.forall hsym hdist ha hb hne) hid

theorem getBooking_mem {s : EngineState} {bid : Nat} {bk : Booking}
    (h : getBooking s bid = some bk) : bk ∈ s.bookings ∧ bk.id = bid := by
  unfold getBooking at h
  refine ⟨List.mem_of_find?_eq_some h, ?_⟩
  have h2 := List.find?_some h
  simpa using h2

theorem createBooking_ok_dest (s s2 : EngineState) (tenantId adId : Nat)
    (dateFrom dateTo today : Int)
    (hok : createBooking s tenantId adId dateFrom dateTo today = Except.ok s2) :
    ∃ ad, getAd s adId = some ad ∧
      (bookingValidate tenantId ad dateFrom dateTo today s.bookings none).isEmpty = true ∧
      s2 = { s with
        bookings := s.bookings ++ [⟨s.nextId, adId, tenantId, dateFrom, dateTo, Status.PENDING⟩],
        nextId := s.nextId + 1 } := by
  unfold createBooking at hok
  cases had : getAd s adId with
  | none => rw [had] at hok; simp at hok
  | some ad =>
    rw [had] at hok
    dsimp only at hok
    by_cases he : (bookingValidate tenantId ad dateFrom dateTo today s.bookings none).isEmpty = true
    · rw [if_pos he] at hok
      cases hok
      exact ⟨ad, rfl, he, rfl⟩
    · rw [if_neg he] at hok; simp at hok

theorem bookingValidate_isEmpty_no_overlap (userId : Nat) (ad : Ad)
    (dateFrom dateTo today : Int) (bookings : List Booking)
    (h : (bookingValidate userId ad dateFrom dateTo today bookings none).isEmpty = true) :
    ∀ b ∈ bookings, b.adId = ad.id → b.status = Status.CONFIRMED →
      overlapFilterHit b.dateFrom b.dateTo dateFrom dateTo = false := by
  intro b hb hA hC
  by_cases h1 : ad.isActive <;>
  by_cases h2 : ad.ownerId = userId <;>
  by_cases h3 : dateTo ≤ dateFrom <;>
  by_cases h4 : dateFrom ≤ today <;>
  simp [bookingValidate, BookingErrors.isEmpty, h1, h2, h3, h4,
    List.any_eq_false] at h
  simpa [hA, hC] using h b hb

/-- Case analysis on the per-row effect of the confirm cascade. -/
theorem confirmMapFn_cases (bk b : Booking) :
    (b.id = bk.id ∧ confirmMapFn bk b = { b with status := Status.CONFIRMED })
    ∨ (b.id ≠ bk.id ∧ (b.adId = bk.adId ∧ b.status = Status.PENDING ∧ touchOverlap b bk)
        ∧ confirmMapFn bk b = { b with status := Status.CANCELLED })
    ∨ (b.id ≠ bk.id ∧ ¬(b.adId = bk.adId ∧ b.status = Status.PENDING ∧ touchOverlap b bk)
        ∧ confirmMapFn bk b = b) := by
  by_cases h1 : b.id = bk.id
  · exact Or.inl ⟨h1, by simp [confirmMapFn, h1]⟩
  · by_cases h2 : b.adId = bk.adId ∧ b.status = Status.PENDING ∧ touchOverlap b bk
    · refine Or.inr (Or.inl ⟨h1, h2, ?_⟩)
      have hcond : (decide (b.adId = bk.adId) && decide (b.status = Status.PENDING) &&
          overlapFilterHit b.dateFrom b.dateTo bk.dateFrom bk.dateTo) = true := by
        simp only [Bool.and_eq_true, decide_eq_true_eq, overlapFilterHit_iff]
        exact ⟨⟨h2.1, h2.2.1⟩, h2.2.2.1, h2.2.2.2⟩
      simp [confirmMapFn, h1, hcond]
    · refine Or.inr (Or.inr ⟨h1, h2, ?_⟩)
      have hcond : (decide (b.adId = bk.adId) && decide (b.status = Status.PENDING) &&
          overlapFilterHit b.dateFrom b.dateTo bk.dateFrom bk.dateTo) = false := by
        by_contra h
        rw [Bool.not_eq_false] at h
        simp only [Bool.and_eq_true, decide_eq_true_eq, overlapFilterHit_iff] at h
        exact h2 ⟨h.1.1, h.1.2, h.2.1, h.2.2⟩
      simp [confirmMapFn, h1, hcond]

theorem pendingClear_confirm {bs : List Booking} {bk : Booking}
    (hbk : bk ∈ bs) (hdist : IdsDistinct bs)
    (hP : PendingClear bs) :
    PendingClear (bs.map (confirmMapFn bk)) := by
  intro p hp c hc hpP hcC hadEq
  rw [List.mem_map] at hp hc
  obtain ⟨p0, hp0, rfl⟩ := hp
  obtain ⟨c0, hc0, rfl⟩ := hc
  rcases confirmMapFn_cases bk p0 with ⟨hid, heq⟩ | ⟨hid, hcnd, heq⟩ | ⟨hid, hcnd, heq⟩
  · rw [heq] at hpP; simp at hpP
  · rw [heq] at hpP; simp at hpP
  · rw [heq] at hpP hadEq ⊢
    rcases confirmMapFn_cases bk c0 with ⟨hid2, heq2⟩ | ⟨hid2, hcnd2, heq2⟩ | ⟨hid2, hcnd2, heq2⟩
    · have hc0bk : c0 = bk := mem_id_unique hdist hc0 hbk hid2
      subst hc0bk
      rw [heq2] at hadEq ⊢
      intro hT
      exact hcnd ⟨hadEq, hpP, hT.1, hT.2⟩
    · rw [heq2] at hcC; simp at hcC
    · rw [heq2] at hcC hadEq ⊢
      exact hP p0 hp0 c0 hc0 hpP hcC hadEq

theorem confirmedClear_confirm {bs : List Booking} {bk : Booking}
    (hbk : bk ∈ bs) (hbkP : bk.status = Status.PENDING) (hdist : IdsDistinct bs)
    (hP : PendingClear bs) (hC : ConfirmedClear bs) :
    ConfirmedClear (bs.map (confirmMapFn bk)) := by
  intro a ha b hb hidne hadEq haC hbC
  rw [List.mem_map] at ha hb
  obtain ⟨a0, ha0, rfl⟩ := ha
  obtain ⟨b0, hb0, rfl⟩ := hb
  have hidne0 : a0.id ≠ b0.id := by
    rw [confirmMapFn_id, confirmMapFn_id] at hidne
    exact hidne
  rcases confirmMapFn_cases bk a0 with ⟨hid, heq⟩ | ⟨hid, hcnd, heq⟩ | ⟨hid, hcnd, heq⟩
  · have ha0bk : a0 = bk := mem_id_unique hdist ha0 hbk hid
    subst ha0bk
    rw [heq] at hadEq ⊢
    rcases confirmMapFn_cases a0 b0 with ⟨hid2, heq2⟩ | ⟨hid2, hcnd2, heq2⟩ | ⟨hid2, hcnd2, heq2⟩
    · exact absurd hid2 hidne0.symm
    · rw [heq2] at hbC; simp at hbC
    · rw [heq2] at hbC hadEq ⊢
      intro hT
      exact hP a0 ha0 b0 hb0 hbkP hbC hadEq ⟨hT.1, hT.2⟩
  · rw [heq] at haC; simp at haC
  · rw [heq] at haC hadEq ⊢
    rcases confirmMapFn_cases bk b0 with ⟨hid2, heq2⟩ | ⟨hid2, hcnd2, heq2⟩ | ⟨hid2, hcnd2, heq2⟩
    · have hb0bk : b0 = bk := mem_id_unique hdist hb0 hbk hid2
      subst hb0bk
      rw [heq2] at hadEq ⊢
      intro hT
      exact hP b0 hb0 a0 ha0 hbkP haC hadEq.symm ⟨hT.2, hT.1⟩
    · rw [heq2] at hbC; simp at hbC
    · rw [heq2] at hbC hadEq ⊢
      exact hC a0 ha0 b0 hb0 hidne0 hadEq haC hbC

theorem idsDistinct_map {bs : List Booking} {f : Booking → Booking}
    (hid : ∀ b, (f b).id = b.id) (h : IdsDistinct bs) : IdsDistinct (bs.map f) := by
  unfold IdsDistinct at h ⊢
  rw [List.pairwise_map]
  exact h.imp fun hab => by rw [hid, hid]; exact hab

theorem cancelMapFn_fields (bid : Nat) (b : Booking) :
    (cancelMapFn bid b).id = b.id ∧ (cancelMapFn bid b).adId = b.adId ∧
    (cancelMapFn bid b).dateFrom = b.dateFrom ∧ (cancelMapFn bid b).dateTo = b.dateTo := by
  unfold cancelMapFn
  by_cases h : b.id = bid <;> simp [h]

theorem cancelMapFn_status (bid : Nat) (b : Booking) :
    (cancelMapFn bid b).status = b.status ∨ (cancelMapFn bid b).status = Status.CANCELLED := by
  unfold cancelMapFn
  by_cases h : b.id = bid <;> simp [h]

/-- A table map that keeps every field except possibly moving statuses to
CANCELLED preserves both overlap-clearance invariants. -/
theorem clear_of_statusMap {bs : List Booking} {f : Booking → Booking}
    (hfields : ∀ b, (f b).id = b.id ∧ (f b).adId = b.adId ∧
       (f b).dateFrom = b.dateFrom ∧ (f b).dateTo = b.dateTo)
    (hs : ∀ b, (f b).status = b.status ∨ (f b).status = Status.CANCELLED)
    (hP : PendingClear bs) (hC : ConfirmedClear bs) :
    PendingClear (bs.map f) ∧ ConfirmedClear (bs.map f) := by
  constructor
  · intro p hp c hc hpP hcC hadEq
    rw [List.mem_map] at hp hc
    obtain ⟨p0, hp0, rfl⟩ := hp
    obtain ⟨c0, hc0, rfl⟩ := hc
    obtain ⟨hpid, hpad, hpf, hpt⟩ := hfields p0
    obtain ⟨hcid, hcad, hcf, hct⟩ := hfields c0
    have hp0P : p0.status = Status.PENDING := by
      rcases hs p0 with h | h
      · rw [h] at hpP; exact hpP
      · rw [h] at hpP; simp at hpP
    have hc0C : c0.status = Status.CONFIRMED := by
      rcases hs c0 with h | h
      · rw [h] at hcC; exact hcC
      · rw [h] at hcC; simp at hcC
    have had0 : p0.adId = c0.adId := by rw [hpad, hcad] at hadEq; exact hadEq
    intro hT
    apply hP p0 hp0 c0 hc0 hp0P hc0C had0
    unfold touchOverlap at hT ⊢
    rw [hpf, hpt, hcf, hct] at hT
    exact hT
  · intro a ha b hb hidne hadEq haC hbC
    rw [List.mem_map] at ha hb
    obtain ⟨a0, ha0, rfl⟩ := ha
    obtain ⟨b0, hb0, rfl⟩ := hb
    obtain ⟨haid, haad, haf, hat⟩ := hfields a0
    obtain ⟨hbid, hbad, hbf, hbt⟩ := hfields b0
    have ha0C : a0.status = Status.CONFIRMED := by
      rcases hs a0 with h | h
      · rw [h] at haC; exact haC
      · rw [h] at haC; simp at haC
    have hb0C : b0.status = Status.CONFIRMED := by
      rcases hs b0 with h | h
      · rw [h] at hbC; exact hbC
      · rw [h] at hbC; simp at hbC
    have hidne0 : a0.id ≠ b0.id := by rw [haid, hbid] at hidne; exact hidne
    have had0 : a0.adId = b0.adId := by rw [haad, hbad] at hadEq; exact hadEq
    intro hT
    apply hC a0 ha0 b0 hb0 hidne0 had0 ha0C hb0C
    unfold touchOverlap at hT ⊢
    rw [haf, hat, hbf, hbt] at hT
    exact hT

theorem inv_statusMapState {s : EngineState} {bid : Nat} (hInv : Inv s) :
    Inv { s with bookings := s.bookings.map (cancelMapFn bid) } := by
  obtain ⟨hdist, hbound, hP, hC⟩ := hInv
  obtain ⟨hP2, hC2⟩ := clear_of_statusMap (cancelMapFn_fields bid) (cancelMapFn_status bid) hP hC
  refine ⟨idsDistinct_map (fun b => (cancelMapFn_fields bid b).1) hdist, ?_, hP2, hC2⟩
  intro b hb
  simp only [List.mem_map] at hb
  obtain ⟨b0, hb0, rfl⟩ := hb
  rw [(cancelMapFn_fields bid b0).1]
  exact hbound b0 hb0

theorem cancelBooking_ok_dest (s s2 : EngineState) (actorId bid : Nat) (today : Int)
    (bk : Booking) (hfind : getBooking s bid = some bk)
    (hok : cancelBooking s actorId bid today = Except.ok s2) :
    s2 = { s with bookings := s.bookings.map (cancelMapFn bk.id) } := by
  unfold cancelBooking at hok
  rw [hfind] at hok
  dsimp only at hok
  by_cases h1 : bk.tenantId ≠ actorId
  · rw [if_pos h1] at hok; simp at hok
  · rw [if_neg h1] at hok
    by_cases h2 : bk.status = Status.CANCELLED
    · rw [if_pos h2] at hok; simp at hok
    · rw [if_neg h2] at hok
      by_cases h3 : ¬(bk.status = Status.PENDING ∨ bk.status = Status.CONFIRMED)
      · rw [if_pos h3] at hok; simp at hok
      · rw [if_neg h3] at hok
        by_cases h4 : today ≥ bk.dateFrom
        · rw [if_pos h4] at hok; simp at hok
        · rw [if_neg h4] at hok
          cases hok
          rfl

theorem rejectBooking_ok_dest (s s2 : EngineState) (actorId bid : Nat)
    (bk : Booking) (hfind : getBooking s bid = some bk)
    (hok : rejectBooking s actorId bid = Except.ok s2) :
    s2 = { s with bookings := s.bookings.map (cancelMapFn bk.id) } := by
  unfold rejectBooking at hok
  rw [hfind] at hok
  dsimp only at hok
  cases had : getAd s bk.adId with
  | none => rw [had] at hok; simp at hok
  | some ad =>
    rw [had] at hok
    dsimp only at hok
    by_cases h1 : ad.ownerId ≠ actorId
    · rw [if_pos h1] at hok; simp at hok
    · rw [if_neg h1] at hok
      by_cases h2 : bk.status ≠ Status.PENDING
      · rw [if_pos h2] at hok; simp at hok
      · rw [if_neg h2] at hok
        cases hok
        rfl

theorem inv_create {s s2 : EngineState} {tenantId adId : Nat} {dateFrom dateTo today : Int}
    (hInv : Inv s) (hok : createBooking s tenantId adId dateFrom dateTo today = Except.ok s2) :
    Inv s2 := by
  obtain ⟨hdist, hbound, hP, hC⟩ := hInv
  obtain ⟨ad, hget, hval, hstate⟩ := createBooking_ok_dest s s2 _ _ _ _ _ hok
  have hadid : ad.id = adId := by
    unfold getAd at hget
    have h := List.find?_some hget
    simpa using h
  have hnoov := bookingValidate_isEmpty_no_overlap _ _ _ _ _ _ hval
  subst hstate
  refine ⟨?_, ?_, ?_, ?_⟩
  · unfold IdsDistinct
    rw [List.pairwise_append]
    refine ⟨hdist, List.pairwise_singleton _ _, ?_⟩
    intro a ha b hb
    rw [List.mem_singleton] at hb
    subst hb
    have h1 := hbound a ha
    show a.id ≠ s.nextId
    omega
  · intro b hb
    rw [List.mem_append, List.mem_singleton] at hb
    rcases hb with hb | hb
    · have := hbound b hb
      show b.id < s.nextId + 1
      omega
    · subst hb
      show s.nextId < s.nextId + 1
      omega
  · intro p hp c hc hpP hcC hadEq
    rw [List.mem_append, List.mem_singleton] at hp hc
    rcases hp with hp | hp <;> rcases hc with hc | hc
    · exact hP p hp c hc hpP hcC hadEq
    · subst hc; simp at hcC
    · subst hp
      intro hT
      have h2 : overlapFilterHit c.dateFrom c.dateTo dateFrom dateTo = true :=
        (overlapFilterHit_iff _ _ _ _).mpr ⟨hT.2, hT.1⟩
      rw [hnoov c hc (hadEq.symm.trans hadid.symm) hcC] at h2
      exact Bool.noConfusion h2
    · subst hc; simp at hcC
  · intro a ha b hb hidne hadEq haC hbC
    rw [List.mem_append, List.mem_singleton] at ha hb
    rcases ha with ha | ha <;> rcases hb with hb | hb
    · exact hC a ha b hb hidne hadEq haC hbC
    · subst hb; simp at hbC
    · subst ha; simp at haC
    · subst hb; simp at hbC

theorem inv_confirm {s s2 : EngineState} {actorId bid : Nat}
    (hInv : Inv s) (hok : confirmBooking s actorId bid = Except.ok s2) : Inv s2 := by
  obtain ⟨hdist, hbound, hP, hC⟩ := hInv
  cases hfind : getBooking s bid with
  | none => unfold confirmBooking at hok; rw [hfind] at hok; simp at hok
  | some bk =>
    obtain ⟨hstate, hbkP⟩ := confirmBooking_ok_bookings s s2 actorId bid bk hfind hok
    obtain ⟨hbkMem, -⟩ := getBooking_mem hfind
    subst hstate
    refine ⟨idsDistinct_map (confirmMapFn_id bk) hdist, ?_, ?_, ?_⟩
    · intro b hb
      simp only [List.mem_map] at hb
      obtain ⟨b0, hb0, rfl⟩ := hb
      rw [confirmMapFn_id]
      exact hbound b0 hb0
    · exact pendingClear_confirm hbkMem hdist hP
    · exact confirmedClear_confirm hbkMem hbkP hdist hP hC

theorem inv_cancel {s s2 : EngineState} {actorId bid : Nat} {today : Int}
    (hInv : Inv s) (hok : cancelBooking s actorId bid today = Except.ok s2) : Inv s2 := by
  cases hfind : getBooking s bid with
  | none => unfold cancelBooking at hok; rw [hfind] at hok; simp at hok
  | some bk =>
    have hstate := cancelBooking_ok_dest s s2 actorId bid today bk hfind hok
    subst hstate
    exact inv_statusMapState hInv

theorem inv_reject {s s2 : EngineState} {actorId bid : Nat}
    (hInv : Inv s) (hok : rejectBooking s actorId bid = Except.ok s2) : Inv s2 := by
  cases hfind : getBooking s bid with
  | none => unfold rejectBooking at hok; rw [hfind] at hok; simp at hok
  | some bk =>
    have hstate := rejectBooking_ok_dest s s2 actorId bid bk hfind hok
    subst hstate
    exact inv_statusMapState hInv

theorem inv_applyOp (s : EngineState) (op : Op) (h : Inv s) : Inv (applyOp s op) := by
  cases op with
  | create t a f g today =>
    unfold applyOp
    dsimp only
    cases hc : createBooking s t a f g today with
    | ok s2 => exact inv_create h hc
    | error e => exact h
  | confirm actorId bid =>
    unfold applyOp
    dsimp only
    cases hc : confirmBooking s actorId bid with
    | ok s2 => exact inv_confirm h hc
    | error e => exact h
  | reject actorId bid =>
    unfold applyOp
    dsimp only
    cases hc : rejectBooking s actorId bid with
    | ok s2 => exact inv_reject h hc
    | error e => exact h
  | cancel actorId bid today =>
    unfold applyOp
    dsimp only
    cases hc : cancelBooking s actorId bid today with
    | ok s2 => exact inv_cancel h hc
    | error e => exact h

theorem inv_applyOps (s : EngineState) (h : Inv s) (ops : List Op) : Inv (applyOps s ops) := by
  induction ops generalizing s with
  | nil => exact h
  | cons op rest ih => exact ih _ (inv_applyOp s op h)

/-- The invariant holds in any state whose booking table is empty, in
particular the initial state of the system. -/
theorem inv_of_empty (ads : List Ad) (n : Nat) : Inv ⟨ads, [], n⟩ :=
  ⟨List.Pairwise.nil,
   fun b hb => absurd hb (List.not_mem_nil b),
   fun p hp => absurd hp (List.not_mem_nil p),
   fun a ha => absurd ha (List.not_mem_nil a)⟩

/-- C3: from any state satisfying the engine invariant `Inv` — the empty
store does, and `Inv` is precisely what creation validation and the confirm
cascade maintain, so it characterises the reachable states — no sequence of
engine operations (create, confirm, reject, cancel) reaches a state with two
distinct CONFIRMED bookings on the same ad with overlapping windows; in
particular confirming a booking never leaves such a pair. -/
theorem c3_no_confirmed_overlap (s : EngineState) (hInv : Inv s) (ops : List Op) :
    NoConfirmedOverlap (applyOps s ops).bookings := by
  obtain ⟨-, -, -, hC⟩ := inv_applyOps s hInv ops
  intro a ha b hb hid had haC hbC hstrict
  exact hC a ha b hb hid had haC hbC (strictOverlap_touchOverlap a b hstrict)

/-- Witness for C3: from the empty store, create two overlapping bookings
by different tenants, confirm the first (cancelling the second), and observe
the invariant in the reached state. -/
theorem c3_no_confirmed_overlap_witness :
    NoConfirmedOverlap (applyOps ⟨[⟨1, 10, 100, true⟩], [], 0⟩
      [Op.create 20 1 10 15 0, Op.create 21 1 12 18 0, Op.confirm 10 0]).bookings :=
  c3_no_confirmed_overlap ⟨[⟨1, 10, 100, true⟩], [], 0⟩ (inv_of_empty _ 0)
    [Op.create 20 1 10 15 0, Op.create 21 1 12 18 0, Op.confirm 10 0]

/-! ## Cancellation fee calculator (`_compute_cancel_quote`) -/

/-- Computable floor on ℚ: numerator over denominator with Euclidean
division; equal to `Int.floor`. -/
def ratFloor (q : ℚ) : Int := q.num / (q.den : Int)

theorem ratFloor_eq_floor (q : ℚ) : ratFloor q = ⌊q⌋ := Rat.floor_def.symm

/-- Round a rational to the nearest integer with ties going to the even
neighbour — the rounding of `round(x, ndigits)` in the source's host
language. -/
def roundHalfEven (q : ℚ) : Int :=
  if q - ratFloor q < 1/2 then ratFloor q
  else if 1/2 < q - ratFloor q then ratFloor q + 1
  else if ratFloor q % 2 = 0 then ratFloor q else ratFloor q + 1

/-- `round(x, 2)` of the source: round at two decimal places. -/
def round2 (q : ℚ) : ℚ := (roundHalfEven (q * 100) : ℚ) / 100

theorem roundHalfEven_intCast (n : Int) : roundHalfEven (n : ℚ) = n := by
  unfold roundHalfEven
  rw [ratFloor_eq_floor, Int.floor_intCast]
  have h : (n : ℚ) - n < 1/2 := by norm_num
  rw [if_pos h]

theorem round2_intCast (n : Int) : round2 (n : ℚ) = (n : ℚ) := by
  unfold round2
  have h : ((n : ℚ)) * 100 = ((n * 100 : Int) : ℚ) := by push_cast; ring
  rw [h, roundHalfEven_intCast, Int.cast_mul]
  have h100 : ((100 : Int) : ℚ) = (100 : ℚ) := by norm_num
  rw [h100, mul_div_assoc]
  norm_num

/-- The fee breakdown returned by `_compute_cancel_quote` (the fields the
claims are about; the message string and the constant currency are omitted). -/
structure CancelQuote where
  daysUntilStart : Int
  feePercent : ℚ
  feeAmount : ℚ
  nights : Int
  totalCost : ℚ
  afterStart : Bool
deriving DecidableEq, Repr

/-- `_compute_cancel_quote` (src/ads/views.py lines 790-833):
`days_until = date_from - today`; fee fraction 0 when `days_until ≥ 4`,
`0.2 * (4 - days_until)` when `days_until ≥ 1`, 1 otherwise;
`nights = max(1, date_to - date_from)`; `total_cost = price * nights`;
`fee_amount = round(total_cost * fee_pct, 2)`;
`fee_percent = round(fee_pct * 100, 2)`; `total_cost` is reported rounded to
two decimals; `after_start = days_until ≤ 0`.  The source does this
arithmetic on binary floating point; the embedding uses exact rationals,
writing `0.2` as `2/10`. -/
def computeCancelQuote (today dateFrom dateTo : Int) (price : ℚ) : CancelQuote :=
  let daysUntil : Int := dateFrom - today
  let feePct : ℚ :=
    if daysUntil ≥ 4 then 0
    else if daysUntil ≥ 1 then (2 / 10) * ((4 - daysUntil : Int) : ℚ)
    else 1
  let nights : Int := max 1 (dateTo - dateFrom)
  let totalCost : ℚ := price * (nights : ℚ)
  { daysUntilStart := daysUntil
    feePercent := round2 (feePct * 100)
    feeAmount := round2 (totalCost * feePct)
    nights := nights
    totalCost := round2 totalCost
    afterStart := decide (daysUntil ≤ 0) }

/-- Closed form of the reported `fee_percent`: the two-decimal rounding is
the identity on the schedule's exact values 0, 20, 40, 60, 100. -/
theorem computeCancelQuote_feePercent (today dateFrom dateTo : Int) (price : ℚ) :
    (computeCancelQuote today dateFrom dateTo price).feePercent =
      (if dateFrom - today ≥ 4 then 0
       else if dateFrom - today ≥ 1 then 20 * ((4 - (dateFrom - today) : Int) : ℚ)
       else 100) := by
  unfold computeCancelQuote
  dsimp only
  by_cases h1 : dateFrom - today ≥ 4
  · simp only [h1, if_true]
    have h : (0 : ℚ) * 100 = ((0 : Int) : ℚ) := by norm_num
    rw [h, round2_intCast]
    norm_num
  · by_cases h2 : dateFrom - today ≥ 1
    · simp only [h1, h2, if_false, if_true]
      have h : (2 / 10 : ℚ) * ((4 - (dateFrom - today) : Int) : ℚ) * 100 =
          ((20 * (4 - (dateFrom - today)) : Int) : ℚ) := by push_cast; ring
      rw [h, round2_intCast]
      push_cast
      ring
    · simp only [h1, h2, if_false]
      have h : (1 : ℚ) * 100 = ((100 : Int) : ℚ) := by norm_num
      rw [h, round2_intCast]
      norm_num

theorem feeClosed_nonneg (d : Int) :
    (0 : ℚ) ≤ (if d ≥ 4 then (0 : ℚ) else if d ≥ 1 then 20 * ((4 - d : Int) : ℚ) else 100) := by
  by_cases h4 : d ≥ 4
  · simp [h4]
  · by_cases h1 : d ≥ 1
    · simp only [h4, h1, if_false, if_true]
      have hc : (0 : ℚ) ≤ ((4 - d : Int) : ℚ) := by
        exact_mod_cast (by omega : (0 : Int) ≤ 4 - d)
      linarith
    · simp [h4, h1]

theorem feeClosed_antitone (d1 d2 : Int) (h : d1 ≤ d2) :
    (if d2 ≥ 4 then (0 : ℚ) else if d2 ≥ 1 then 20 * ((4 - d2 : Int) : ℚ) else 100) ≤
    (if d1 ≥ 4 then (0 : ℚ) else if d1 ≥ 1 then 20 * ((4 - d1 : Int) : ℚ) else 100) := by
  by_cases h24 : d2 ≥ 4
  · simp only [h24, if_true]
    exact feeClosed_nonneg d1
  · by_cases h21 : d2 ≥ 1
    · have h14 : ¬ d1 ≥ 4 := by omega
      simp only [h24, h21, h14, if_false, if_true]
      by_cases h11 : d1 ≥ 1
      · simp only [h11, if_true]
        have hc : ((4 - d2 : Int) : ℚ) ≤ ((4 - d1 : Int) : ℚ) := by
          exact_mod_cast (by omega : (4 - d2 : Int) ≤ 4 - d1)
        linarith
      · simp only [h11, if_false]
        have hc : ((4 - d2 : Int) : ℚ) ≤ 3 := by
          exact_mod_cast (by omega : (4 - d2 : Int) ≤ 3)
        linarith
    · have h14 : ¬ d1 ≥ 4 := by omega
      have h11 : ¬ d1 ≥ 1 := by omega
      simp [h24, h21, h14, h11]

/-- C5: the cancellation fee calculator returns fee_percent 0 when
`days_until_start = date_from - today ≥ 4`, exactly 20/40/60 at 3/2/1 days,
and 100 on/after the start day; `nights = max(1, date_to - date_from)`;
`fee_amount = round(nightly_price * nights * fee_percent/100, 2)`; and
fee_percent is monotonically non-increasing as days_until_start grows. -/
theorem c5_fee_schedule (today dateFrom dateTo : Int) (price : ℚ) :
    ((dateFrom - today ≥ 4 → (computeCancelQuote today dateFrom dateTo price).feePercent = 0)
    ∧ (dateFrom - today = 3 → (computeCancelQuote today dateFrom dateTo price).feePercent = 20)
    ∧ (dateFrom - today = 2 → (computeCancelQuote today dateFrom dateTo price).feePercent = 40)
    ∧ (dateFrom - today = 1 → (computeCancelQuote today dateFrom dateTo price).feePercent = 60)
    ∧ (dateFrom - today ≤ 0 → (computeCancelQuote today dateFrom dateTo price).feePercent = 100))
    ∧ (computeCancelQuote today dateFrom dateTo price).nights = max 1 (dateTo - dateFrom)
    ∧ (computeCancelQuote today dateFrom dateTo price).feeAmount =
        round2 (price * ((max 1 (dateTo - dateFrom) : Int) : ℚ) *
          ((computeCancelQuote today dateFrom dateTo price).feePercent / 100))
    ∧ (∀ t1 t2 : Int, dateFrom - t1 ≤ dateFrom - t2 →
        (computeCancelQuote t2 dateFrom dateTo price).feePercent ≤
        (computeCancelQuote t1 dateFrom dateTo price).feePercent) := by
  refine ⟨⟨?_, ?_, ?_, ?_, ?_⟩, ?_, ?_, ?_⟩
  · intro h
    rw [computeCancelQuote_feePercent]
    simp [h]
  · intro h
    rw [computeCancelQuote_feePercent, h]
    norm_num
  · intro h
    rw [computeCancelQuote_feePercent, h]
    norm_num
  · intro h
    rw [computeCancelQuote_feePercent, h]
    norm_num
  · intro h
    have h4 : ¬ dateFrom - today ≥ 4 := by omega
    have h1 : ¬ dateFrom - today ≥ 1 := by omega
    rw [computeCancelQuote_feePercent]
    simp [h4, h1]
  · rfl
  · rw [computeCancelQuote_feePercent]
    unfold computeCancelQuote
    dsimp only
    by_cases h1 : dateFrom - today ≥ 4
    · simp only [h1, if_true]
      norm_num
    · by_cases h2 : dateFrom - today ≥ 1
      · simp only [h1, h2, if_false, if_true]
        congr 1
        ring
      · simp only [h1, h2, if_false]
        norm_num
  · intro t1 t2 h
    rw [computeCancelQuote_feePercent, computeCancelQuote_feePercent]
    exact feeClosed_antitone _ _ h

/-- Witness for C5: three full days of lead time cost 20 percent, and a
start date already reached costs 100 percent. -/
theorem c5_fee_schedule_witness :
    (computeCancelQuote 0 3 8 100).feePercent = 20
    ∧ (computeCancelQuote 0 0 5 100).feePercent = 100 :=
  ⟨(c5_fee_schedule 0 3 8 100).1.2.1 (by decide),
   (c5_fee_schedule 0 0 5 100).1.2.2.2.2 (by decide)⟩

/-! ## Cancel-quote endpoint (C6) -/

/-- `BookingViewSet.cancel_quote` (src/ads/views.py lines 964-985): tenant
only; allowed statuses PENDING and CONFIRMED; computes the quote from the
booking and the ad's nightly price and, for a PENDING booking, overrides the
fee fields to zero. -/
def cancelQuote (s : EngineState) (actorId bid : Nat) (today : Int) : Except Err CancelQuote :=
  match getBooking s bid with
  | none => Except.error Err.notFound
  | some bk =>
    if bk.tenantId ≠ actorId then Except.error Err.forbidden
    else if ¬(bk.status = Status.PENDING ∨ bk.status = Status.CONFIRMED) then
      Except.error (Err.badRequest "Cannot cancel booking with this status.")
    else
      match getAd s bk.adId with
      | none => Except.error Err.notFound
      | some ad =>
        let q := computeCancelQuote today bk.dateFrom bk.dateTo ad.price
        if bk.status = Status.PENDING then
          Except.ok { q with feePercent := 0, feeAmount := 0 }
        else Except.ok q

/-- C6 (amended): cancel-quote invoked by the tenant on a CONFIRMED booking
with `date_from = today`, five nights and nightly price 100 returns the
computed quote with fee_percent 100 and fee_amount 500. -/
theorem c6_day_of_quote (s : EngineState) (bid : Nat) (bk : Booking) (ad : Ad) (today : Int)
    (hfind : getBooking s bid = some bk) (had : getAd s bk.adId = some ad)
    (hstatus : bk.status = Status.CONFIRMED)
    (hstart : bk.dateFrom = today) (hlen : bk.dateTo = today + 5) (hprice : ad.price = 100) :
    cancelQuote s bk.tenantId bid today =
      Except.ok (computeCancelQuote today bk.dateFrom bk.dateTo ad.price)
    ∧ (computeCancelQuote today bk.dateFrom bk.dateTo ad.price).feePercent = 100
    ∧ (computeCancelQuote today bk.dateFrom bk.dateTo ad.price).feeAmount = 500 := by
  have hten : ¬ bk.tenantId ≠ bk.tenantId := by simp
  have hc : ¬¬(bk.status = Status.PENDING ∨ bk.status = Status.CONFIRMED) :=
    not_not.mpr (Or.inr hstatus)
  have hp : ¬ bk.status = Status.PENDING := by simp [hstatus]
  refine ⟨?_, ?_, ?_⟩
  · unfold cancelQuote
    rw [hfind]
    dsimp only
    rw [if_neg hten, if_neg hc, had]
    dsimp only
    rw [if_neg hp]
  · rw [computeCancelQuote_feePercent]
    have h4 : ¬ bk.dateFrom - today ≥ 4 := by omega
    have h1 : ¬ bk.dateFrom - today ≥ 1 := by omega
    simp [h4, h1]
  · unfold computeCancelQuote
    dsimp only
    rw [hstart, hlen, hprice]
    have h0 : today - today = (0 : Int) := by omega
    have h5 : today + 5 - today = (5 : Int) := by omega
    rw [h0, h5]
    norm_num
    have h500 : (500 : ℚ) = ((500 : Int) : ℚ) := by norm_num
    rw [h500, round2_intCast]

def c6State : EngineState :=
  ⟨[⟨1, 10, 100, true⟩], [⟨1, 1, 20, 0, 5, Status.PENDING⟩], 2⟩

/-- C6 counterexample: PENDING is also a cancellable status, but cancel-quote
on a PENDING booking with `date_from = today`, five nights and price 100
returns fee_percent 0 and fee_amount 0, not 100 and 500: the endpoint
overrides the computed fee for PENDING bookings. -/
theorem c6_pending_counterexample :
    (⟨1, 1, 20, 0, 5, Status.PENDING⟩ : Booking).status = Status.PENDING
    ∧ (cancelQuote c6State 20 1 0).map (fun q => (q.feePercent, q.feeAmount)) =
        Except.ok ((0 : ℚ), (0 : ℚ)) := by decide

/-- Witness for C6 (amended) at the same data with a CONFIRMED booking. -/
theorem c6_day_of_quote_witness :
    cancelQuote ⟨[⟨1, 10, 100, true⟩], [⟨1, 1, 20, 0, 5, Status.CONFIRMED⟩], 2⟩ 20 1 0 =
      Except.ok (computeCancelQuote 0 0 5 100)
    ∧ (computeCancelQuote 0 0 5 100).feePercent = 100
    ∧ (computeCancelQuote 0 0 5 100).feeAmount = 500 :=
  c6_day_of_quote ⟨[⟨1, 10, 100, true⟩], [⟨1, 1, 20, 0, 5, Status.CONFIRMED⟩], 2⟩ 1
    ⟨1, 1, 20, 0, 5, Status.CONFIRMED⟩ ⟨1, 10, 100, true⟩ 0
    (by decide) (by decide) (by decide) (by decide) (by decide) (by decide)

/-! ## Reviews (C8, C9) -/

/-- A Review row (`src/ads/models/review.py`): denormalized ad and tenant
refs, a one-to-one booking ref (always resolved on the create path embedded
here) and an integer rating; the text field plays no role in the claims. -/
structure Review where
  id : Nat
  adId : Nat
  tenantId : Nat
  bookingId : Nat
  rating : Int
deriving DecidableEq, Repr

/-- The store as seen by the review endpoints: ads, bookings, reviews. -/
structure ReviewState where
  ads : List Ad
  bookings : List Booking
  reviews : List Review
  nextReviewId : Nat
deriving DecidableEq, Repr

/-- The rating invariant of `Review.clean` (src/ads/models/review.py lines
36-39): rating must lie in 1..5.  Nothing on the API create path invokes
this model-level check. -/
def cleanRatingOk (r : Int) : Bool := decide (1 ≤ r) && decide (r ≤ 5)

/-- The bound actually enforced on `rating` at the API boundary: the model
field `PositiveSmallIntegerField` is mapped by the serializer framework to
an integer field bounded 0..32767, and neither `ReviewSerializer.validate`
(src/ads/serializers/review.py lines 17-44, which returns early when no
booking is posted on create) nor `ReviewViewSet.perform_create` checks the
rating further. -/
def serializerRatingOk (r : Int) : Bool := decide (0 ≤ r) && decide (r ≤ 32767)

/-- The eligibility filter of `ReviewViewSet.perform_create` (src/ads/views.py
line 649): `ad=ad, tenant=user, status=Booking.CONFIRMED, date_to__lt=today,
review__isnull=True`. -/
def eligibleBooking (userId adId : Nat) (today : Int) (reviews : List Review)
    (b : Booking) : Bool :=
  decide (b.adId = adId) && decide (b.tenantId = userId) &&
  decide (b.status = Status.CONFIRMED) && decide (b.dateTo < today) &&
  !(reviews.any fun r => decide (r.bookingId = b.id))

/-- `.order_by("-date_to").first()`: an element with maximal `date_to` among
the list, if the list is nonempty. -/
def pickLatest : List Booking → Option Booking
  | [] => none
  | b :: bs =>
    match pickLatest bs with
    | none => some b
    | some c => if c.dateTo > b.dateTo then some c else some b

def getRAd (s : ReviewState) (adId : Nat) : Option Ad :=
  s.ads.find? fun a => a.id == adId

/-- `ReviewViewSet.create` for the flow where the client posts only `ad`
(src/ads/views.py lines 630-668): serializer field checks, then
`perform_create` resolves the latest finished CONFIRMED unreviewed booking
of this tenant for the ad (404 if the ad does not exist, ValidationError if
no booking qualifies), re-checks ownership/status/timing/uniqueness on the
resolved booking, and saves the review bound to it with `ad` and `tenant`
set server-side. -/
def createReviewByAd (s : ReviewState) (userId adId : Nat) (rating : Int) (today : Int) :
    Except Err ReviewState :=
  if ¬ serializerRatingOk rating then
    Except.error (Err.badRequest "rating outside the serializer field bounds")
  else
    match getRAd s adId with
    | none => Except.error Err.notFound
    | some _ad =>
      match pickLatest (s.bookings.filter (eligibleBooking userId adId today s.reviews)) with
      | none =>
        Except.error
          (Err.badRequest "You can review only after a finished CONFIRMED booking for this ad.")
      | some bk =>
        if bk.tenantId ≠ userId then
          Except.error (Err.badRequest "Only the tenant can review this booking.")
        else if bk.status ≠ Status.CONFIRMED then
          Except.error (Err.badRequest "Only CONFIRMED bookings can be reviewed.")
        else if bk.dateTo ≥ today then
          Except.error (Err.badRequest "You can review only after the stay has ended.")
        else if s.reviews.any fun r => decide (r.bookingId = bk.id) then
          Except.error (Err.badRequest "This booking is already reviewed.")
        else
          Except.ok { s with
            reviews := s.reviews ++ [⟨s.nextReviewId, adId, userId, bk.id, rating⟩],
            nextReviewId := s.nextReviewId + 1 }

def c8State : ReviewState :=
  ⟨[⟨1, 10, 100, true⟩], [⟨1, 1, 20, 0, 5, Status.CONFIRMED⟩], [], 1⟩

/-- C8: the model's own `Review.clean` invariant rejects ratings 6 and 0,
but the API create path never runs it: with an eligible finished CONFIRMED
booking, `create_review` with rating 6 (and with rating 0) succeeds and
stores the review instead of failing with a Validation error. -/
theorem c8_rating_unchecked :
    cleanRatingOk 6 = false ∧ cleanRatingOk 0 = false
    ∧ createReviewByAd c8State 20 1 6 100 =
        Except.ok ⟨[⟨1, 10, 100, true⟩], [⟨1, 1, 20, 0, 5, Status.CONFIRMED⟩],
          [⟨1, 1, 20, 1, 6⟩], 2⟩
    ∧ createReviewByAd c8State 20 1 0 100 =
        Except.ok ⟨[⟨1, 10, 100, true⟩], [⟨1, 1, 20, 0, 5, Status.CONFIRMED⟩],
          [⟨1, 1, 20, 1, 0⟩], 2⟩ := by decide

theorem pickLatest_ne_none (x : Booking) (xs : List Booking) : pickLatest (x :: xs) ≠ none := by
  unfold pickLatest
  cases h : pickLatest xs with
  | none => simp
  | some c =>
    dsimp only
    split <;> simp

theorem pickLatest_mem {bs : List Booking} : ∀ {b : Booking}, pickLatest bs = some b → b ∈ bs := by
  induction bs with
  | nil => intro b h; simp [pickLatest] at h
  | cons x xs ih =>
    intro b h
    unfold pickLatest at h
    cases hx : pickLatest xs with
    | none =>
      rw [hx] at h
      cases h
      exact List.mem_cons_self _ _
    | some c =>
      rw [hx] at h
      dsimp only at h
      by_cases hgt : c.dateTo > x.dateTo
      · rw [if_pos hgt] at h
        cases h
        exact List.mem_cons_of_mem _ (ih hx)
      · rw [if_neg hgt] at h
        cases h
        exact List.mem_cons_self _ _

theorem pickLatest_max {bs : List Booking} : ∀ {b : Booking}, pickLatest bs = some b →
    ∀ c ∈ bs, c.dateTo ≤ b.dateTo := by
  induction bs with
  | nil => intro b h; simp [pickLatest] at h
  | cons x xs ih =>
    intro b h
    unfold pickLatest at h
    cases hx : pickLatest xs with
    | none =>
      rw [hx] at h
      cases h
      intro c hc
      rcases List.mem_cons.mp hc with rfl | hc2
      · exact le_refl _
      · cases xs with
        | nil => simp at hc2
        | cons y ys => exact absurd hx (pickLatest_ne_none y ys)
    | some m =>
      rw [hx] at h
      dsimp only at h
      by_cases hgt : m.dateTo > x.dateTo
      · rw [if_pos hgt] at h
        cases h
        intro c hc
        rcases List.mem_cons.mp hc with rfl | hc2
        · omega
        · exact ih hx c hc2
      · rw [if_neg hgt] at h
        cases h
        intro c hc
        rcases List.mem_cons.mp hc with rfl | hc2
        · exact le_refl _
        · have h2 := ih hx c hc2
          omega

theorem eligibleBooking_iff (userId adId : Nat) (today : Int) (reviews : List Review)
    (b : Booking) :
    eligibleBooking userId adId today reviews b = true ↔
      b.adId = adId ∧ b.tenantId = userId ∧ b.status = Status.CONFIRMED ∧
      b.dateTo < today ∧ (reviews.any fun r => decide (r.bookingId = b.id)) = false := by
  unfold eligibleBooking
  simp [Bool.and_eq_true, and_assoc]

/-- C9: with a rating the serializer accepts and an existing ad, creating a
review by ad succeeds iff this tenant has a CONFIRMED booking on the ad
finished strictly before today with no review attached; the new review is
bound to such an eligible booking with maximal `date_to`; when no booking
qualifies the call fails with a Validation error and no review is stored. -/
theorem c9_review_eligibility (s : ReviewState) (userId adId : Nat) (rating : Int)
    (today : Int) (ad : Ad)
    (hrating : serializerRatingOk rating = true)
    (had : getRAd s adId = some ad) :
    ((∃ b ∈ s.bookings, eligibleBooking userId adId today s.reviews b = true) →
      ∃ bk, bk ∈ s.bookings ∧ eligibleBooking userId adId today s.reviews bk = true ∧
        (∀ c ∈ s.bookings, eligibleBooking userId adId today s.reviews c = true →
          c.dateTo ≤ bk.dateTo) ∧
        createReviewByAd s userId adId rating today =
          Except.ok { s with
            reviews := s.reviews ++ [⟨s.nextReviewId, adId, userId, bk.id, rating⟩],
            nextReviewId := s.nextReviewId + 1 })
    ∧ ((∀ b ∈ s.bookings, eligibleBooking userId adId today s.reviews b = false) →
      createReviewByAd s userId adId rating today =
        Except.error
          (Err.badRequest "You can review only after a finished CONFIRMED booking for this ad.")) := by
  constructor
  · rintro ⟨b0, hb0, he0⟩
    have hne : s.bookings.filter (eligibleBooking userId adId today s.reviews) ≠ [] := by
      intro hnil
      have : b0 ∈ s.bookings.filter (eligibleBooking userId adId today s.reviews) :=
        List.mem_filter.mpr ⟨hb0, he0⟩
      rw [hnil] at this
      simp at this
    cases hpick : pickLatest (s.bookings.filter (eligibleBooking userId adId today s.reviews)) with
    | none =>
      cases hl : s.bookings.filter (eligibleBooking userId adId today s.reviews) with
      | nil => exact absurd hl hne
      | cons y ys =>
        rw [hl] at hpick
        exact absurd hpick (pickLatest_ne_none y ys)
    | some bk =>
      have hbkF := pickLatest_mem hpick
      have hbkMem := (List.mem_filter.mp hbkF).1
      have hbkE := (List.mem_filter.mp hbkF).2
      obtain ⟨hAd, hTen, hSt, hDt, hRev⟩ := (eligibleBooking_iff _ _ _ _ _).mp hbkE
      refine ⟨bk, hbkMem, hbkE, ?_, ?_⟩
      · intro c hc hce
        exact pickLatest_max hpick c (List.mem_filter.mpr ⟨hc, hce⟩)
      · unfold createReviewByAd
        rw [if_neg (not_not_intro hrating), had]
        dsimp only
        rw [hpick]
        dsimp only
        rw [if_neg (fun h => h hTen), if_neg (fun h => h hSt),
          if_neg (by omega : ¬ bk.dateTo ≥ today), if_neg (by simp [hRev])]
  · intro hall
    have hl : s.bookings.filter (eligibleBooking userId adId today s.reviews) = [] := by
      rw [List.filter_eq_nil_iff]
      intro b hb
      simp [hall b hb]
    unfold createReviewByAd
    rw [if_neg (not_not_intro hrating), had]
    dsimp only
    rw [hl]
    rfl

/-- Witness for C9: two finished CONFIRMED unreviewed bookings on the ad
(`date_to` 5 and 8); the claim instantiated here and the created review
bound to the later one. -/
theorem c9_review_eligibility_witness :
    ∃ bk, bk ∈ (⟨[⟨1, 10, 100, true⟩],
        [⟨1, 1, 20, 0, 5, Status.CONFIRMED⟩, ⟨2, 1, 20, 6, 8, Status.CONFIRMED⟩],
        [], 1⟩ : ReviewState).bookings ∧
      eligibleBooking 20 1 100 [] bk = true ∧
      (∀ c ∈ (⟨[⟨1, 10, 100, true⟩],
          [⟨1, 1, 20, 0, 5, Status.CONFIRMED⟩, ⟨2, 1, 20, 6, 8, Status.CONFIRMED⟩],
          [], 1⟩ : ReviewState).bookings,
        eligibleBooking 20 1 100 [] c = true → c.dateTo ≤ bk.dateTo) ∧
      createReviewByAd ⟨[⟨1, 10, 100, true⟩],
          [⟨1, 1, 20, 0, 5, Status.CONFIRMED⟩, ⟨2, 1, 20, 6, 8, Status.CONFIRMED⟩],
          [], 1⟩ 20 1 4 100 =
        Except.ok ⟨[⟨1, 10, 100, true⟩],
          [⟨1, 1, 20, 0, 5, Status.CONFIRMED⟩, ⟨2, 1, 20, 6, 8, Status.CONFIRMED⟩],
          [⟨1, 1, 20, bk.id, 4⟩], 2⟩ :=
  (c9_review_eligibility ⟨[⟨1, 10, 100, true⟩],
      [⟨1, 1, 20, 0, 5, Status.CONFIRMED⟩, ⟨2, 1, 20, 6, 8, Status.CONFIRMED⟩], [], 1⟩
    20 1 4 100 ⟨1, 10, 100, true⟩ (by decide) (by decide)).1
    ⟨⟨1, 1, 20, 0, 5, Status.CONFIRMED⟩, by decide, by decide⟩

end Hausrunde
